import Mathlib

set_option autoImplicit false

/-!
Verification development for the Obsidian task-vault backend.
The definitions below are shallow embeddings of the Python sources:
the date normalization service (app/src/domain/date_service.py),
the record entities (app/src/domain/entities.py),
the task state machine (app/src/domain/task_processor.py),
the locking stack (app/src/infrastructure/locking/) and the vault
manager (app/src/infrastructure/vault_manager.py).
-/

/-- Path of a file, as the list of its segments from the filesystem root. -/
abbrev FsPath := List String

/-- Render a path as a slash separated string, as Python str(Path) would. -/
def strPath (p : FsPath) : String := String.intercalate "/" p

/-- Last segment of a path (Python Path.name); empty for the root. -/
def lastSeg (p : FsPath) : String := p.getLastD ""

/-- Lexicographic order on code point lists, as Python compares strings. -/
def charListLe : List Char → List Char → Bool
  | [], _ => true
  | _ :: _, [] => false
  | c :: cs, d :: ds =>
      if c.toNat < d.toNat then true
      else if d.toNat < c.toNat then false
      else charListLe cs ds

/-- Python string comparison str1 <= str2. -/
def pyStrLe (a b : String) : Bool := charListLe a.data b.data

/-- Whether the string ends with the record extension .md. -/
def endsWithMd (s : String) : Bool := (".md".data).isSuffixOf s.data

/-- Kinds of OS level errors the embedding distinguishes. -/
inductive OSErrKind
  | fileNotFound
  | notADirectory
  | isADirectory
  | fileExists
  | wouldBlock
  deriving Repr, DecidableEq

/-- Python exceptions observable through the vault components. -/
inductive PyErr
  | osError (kind : OSErrKind) (path : String)
  | valueError (msg : String)
  | typeError (msg : String)
  | yamlError (msg : String)
  | runtimeError (msg : String)
  | vaultFileOperationError (operation : String) (path : String) (cause : Option PyErr)
  | vaultConcurrencyError (message : String) (resource : String) (cause : Option PyErr)

/-- True for the errors that Python except OSError would catch
(FileNotFoundError, NotADirectoryError, FileExistsError and friends
are all subclasses of OSError). -/
def PyErr.isOSError : PyErr → Bool
  | .osError _ _ => true
  | _ => false

/-- True for VaultConcurrencyError. -/
def PyErr.isConcurrency : PyErr → Bool
  | .vaultConcurrencyError _ _ _ => true
  | _ => false

/-- Model of a Python datetime: days since an epoch plus seconds within
the day.  All datetimes built by the embedded code keep the second
component in the interval from 0 to 86399. -/
structure DT where
  day : Int
  sec : Int
  deriving Repr, DecidableEq

/-- Total seconds since the epoch. -/
def DT.toSecs (t : DT) : Int := t.day * 86400 + t.sec

/-- Datetime from total seconds since the epoch. -/
def DT.ofSecs (n : Int) : DT := ⟨n.ediv 86400, n.emod 86400⟩

/-- Python datetime plus timedelta, with the delta given in seconds. -/
def DT.addSecs (t : DT) (d : Int) : DT := DT.ofSecs (t.toSecs + d)

/-- Model of a Python string sitting in a date bearing position.  The
shapes mirror the format list of DateService: a bare date, a date with
hours and minutes, a date with full time, the empty string, or any
other string (which matches none of the three formats). -/
inductive DStr
  | empty
  | dOnly (day : Int)
  | dHM (day : Int) (h m : Nat)
  | dHMS (day : Int) (h m s : Nat)
  | other (s : String)
  deriving Repr, DecidableEq

/-- Whether the string contains a T time separator. -/
def DStr.hasT : DStr → Bool
  | .dHM _ _ _ => true
  | .dHMS _ _ _ _ => true
  | _ => false

/-- Model of a Python value held in frontmatter or in an entity field:
None, a bool, a string, a bare calendar date object, or a datetime. -/
inductive Val
  | none
  | b (x : Bool)
  | s (x : DStr)
  | date (day : Int)
  | dt (x : DT)
  deriving Repr, DecidableEq

/-- Python truthiness of a value: None, False and the empty string are
falsy; every date, datetime, True and nonempty string is truthy. -/
def Val.truthy : Val → Bool
  | .none => false
  | .b x => x
  | .s .empty => false
  | .s _ => true
  | .date _ => true
  | .dt _ => true

/-- Option of a datetime as a Python value. -/
def optToVal : Option DT → Val
  | Option.none => .none
  | some d => .dt d

/-- DateService.parse_datevalue_to_parseddate: the empty string becomes
None, the three canonical formats parse, anything else raises
ValueError. -/
def parseDatevalueToParseddate : DStr → Except PyErr (Option DT)
  | .empty => .ok Option.none
  | .dOnly d => .ok (some ⟨d, 0⟩)
  | .dHM d h m => .ok (some ⟨d, ((h * 3600 + m * 60 : Nat) : Int)⟩)
  | .dHMS d h m s => .ok (some ⟨d, ((h * 3600 + m * 60 + s : Nat) : Int)⟩)
  | .other s => .error (.valueError ("Invalid date format: " ++ s))

/-- DateService._get_field_time, as seconds within the day: end of day
for due_date, start of day for do_date and for every other field. -/
def getFieldTime (field : String) : Int :=
  if field = "due_date" then 86399 else 0

/-- DateService._apply_field_semantics.  A parsed value with an explicit
time component is kept; a bare date takes the current time of day for
completed_at and the field specific default otherwise. -/
def applyFieldSemantics (now : DT) (o : Option DT) (field : String) (hasTime : Bool) :
    Option DT :=
  match o with
  | Option.none => Option.none
  | some d =>
      if hasTime then some d
      else if field = "completed_at" then some ⟨d.day, now.sec⟩
      else some ⟨d.day, getFieldTime field⟩

/-- DateService.normalize_for_field.  Falsy values normalize to None,
datetimes pass through, bare dates are combined with the field default
time, strings are parsed and given field semantics, and any other
value yields None. -/
def normalizeForField (now : DT) (value : Val) (field : String) :
    Except PyErr (Option DT) :=
  if value.truthy = false then .ok Option.none
  else
    match value with
    | .dt x => .ok (some x)
    | .date d => .ok (some ⟨d, getFieldTime field⟩)
    | .s str =>
        match parseDatevalueToParseddate str with
        | .error e => .error e
        | .ok parsed => .ok (applyFieldSemantics now parsed field str.hasT)
    | _ => .ok Option.none

/-- DateService._is_date_only_semantics: the stored time of day equals
the field default. -/
def isDateOnlySemantics (d : DT) (field : String) : Bool :=
  d.sec = getFieldTime field

/-- DateService.format_for_storage.  Strings pass through unchanged,
completed_at always serializes with full time, values that match the
field default time serialize as a bare date, and other datetimes
serialize with hours and minutes. -/
def formatForStorage (v : Val) (field : String) : Except PyErr DStr :=
  match v with
  | .s x => .ok x
  | .dt d =>
      if field = "completed_at" then
        .ok (.dHMS d.day (d.sec.toNat / 3600) (d.sec.toNat % 3600 / 60) (d.sec.toNat % 60))
      else if isDateOnlySemantics d field then .ok (.dOnly d.day)
      else .ok (.dHM d.day (d.sec.toNat / 3600) (d.sec.toNat % 3600 / 60))
  | .date d =>
      if field = "completed_at" then .ok (.dHMS d 0 0 0)
      else .error (.typeError "date object has no attribute hour")
  | _ => .error (.typeError "strftime on a non date value")

/-- Lookup of a key in a frontmatter mapping. -/
def fmLookup (fm : List (String × Val)) (k : String) : Option Val :=
  (fm.find? (fun e => e.1 = k)).map (fun e => e.2)

/-- Model of the TaskItem dataclass.  The seven data fields are held as
Python values, since the reflection based sync copies frontmatter
values into them without enforcing their annotated types. -/
structure TaskItem where
  title : String
  content : String
  frontmatter : List (String × Val)
  source_path : Option FsPath
  is_project : Val
  do_date : Val
  due_date : Val
  completed_at : Val
  done : Val
  is_high_priority : Val
  repeat_task : Val
  deriving Repr, DecidableEq

/-- Fresh TaskItem with the dataclass defaults, before frontmatter
synchronization runs. -/
def TaskItem.raw (title content : String) (fm : List (String × Val))
    (src : Option FsPath) : TaskItem :=
  { title := title, content := content, frontmatter := fm, source_path := src
    is_project := .b false, do_date := .s .empty, due_date := .s .empty
    completed_at := .s .empty, done := .b false, is_high_priority := .b false
    repeat_task := .s .empty }

/-- One step of BaseItem._sync_from_frontmatter for a datetime flagged
field: a frontmatter value, when present, is normalized (possibly
raising) and stored in the field. -/
def syncDateField (now : DT) (fm : List (String × Val)) (field : String) (cur : Val) :
    Except PyErr Val :=
  match fmLookup fm field with
  | Option.none => .ok cur
  | some v => (normalizeForField now v field).map optToVal

/-- One step of BaseItem._sync_from_frontmatter for a plain field: the
frontmatter value, when present, is copied as is. -/
def syncRawField (fm : List (String × Val)) (field : String) (cur : Val) : Val :=
  (fmLookup fm field).getD cur

/-- BaseItem._sync_from_frontmatter over the TaskItem field table, in
dataclass declaration order. -/
def syncFromFrontmatter (now : DT) (t : TaskItem) : Except PyErr TaskItem := do
  let ip := syncRawField t.frontmatter "is_project" t.is_project
  let dd ← syncDateField now t.frontmatter "do_date" t.do_date
  let ud ← syncDateField now t.frontmatter "due_date" t.due_date
  let ca ← syncDateField now t.frontmatter "completed_at" t.completed_at
  let dn := syncRawField t.frontmatter "done" t.done
  let hp := syncRawField t.frontmatter "is_high_priority" t.is_high_priority
  let rp := syncRawField t.frontmatter "repeat_task" t.repeat_task
  .ok { t with is_project := ip, do_date := dd, due_date := ud, completed_at := ca,
               done := dn, is_high_priority := hp, repeat_task := rp }

/-- TaskItem construction as read_note performs it: dataclass defaults,
then the post init frontmatter synchronization. -/
def mkTaskItem (now : DT) (title content : String) (fm : List (String × Val))
    (src : Option FsPath) : Except PyErr TaskItem :=
  syncFromFrontmatter now (TaskItem.raw title content fm src)

/-- Folder configuration handed to the task processor. -/
structure Config where
  tasks : String
  completed_tasks : String
  archive : String
  deriving Repr, DecidableEq

/-- Repository level effects the task processor requests from the vault
store. -/
inductive Effect
  | save (folder : String)
  | move (folder : String)
  | delete
  | archiveItem (folder : String)
  deriving Repr, DecidableEq

/-- Interface of the croniter library: previous and next fire times of a
cron expression around a reference instant. -/
structure CronEngine where
  prevOcc : Val → DT → DT
  nextOcc : Val → DT → DT

/-- TaskProcessor.get_last_occurrence: None without a repeat expression,
otherwise the previous cron fire time before now. -/
def getLastOccurrence (eng : CronEngine) (now : DT) (t : TaskItem) : Option DT :=
  if t.repeat_task.truthy then some (eng.prevOcc t.repeat_task now) else Option.none

/-- TaskProcessor.get_next_occurrence: None without a repeat expression,
otherwise the next cron fire time after now, rendered as a bare date
string. -/
def getNextOccurrence (eng : CronEngine) (now : DT) (t : TaskItem) : Option DStr :=
  if t.repeat_task.truthy then some (.dOnly (eng.nextOcc t.repeat_task now).day)
  else Option.none

/-- Path written by VaultManager.write_note for an item. -/
def writeNotePath (vault : FsPath) (folder : String) (title : String) : FsPath :=
  vault ++ [folder, title ++ ".md"]

/-- Abstract repository semantics of save_task: the item is written to
the folder and its source path updated. -/
def saveTaskAbs (vault : FsPath) (folder : String) (t : TaskItem) : TaskItem :=
  { t with source_path := some (writeNotePath vault folder t.title) }

/-- Abstract repository semantics of move_task, following
VaultManager.move_note: a missing source path raises ValueError, a
destination equal to the source is a no-op, otherwise the file is
renamed and the source path updated. -/
def moveNoteAbs (vault : FsPath) (t : TaskItem) (destDir : String) :
    Except PyErr TaskItem :=
  match t.source_path with
  | Option.none =>
      .error (.valueError ("Item " ++ t.title ++ " has no source file path. " ++
        "This operation requires the item to be saved first."))
  | some src =>
      let dest := vault ++ [destDir, lastSeg src]
      if src = dest then .ok t
      else .ok { t with source_path := some dest }

/-- TaskProcessor.reset_repeating_task over the abstract repository. -/
def resetRepeatingTask (eng : CronEngine) (now : DT) (vault : FsPath) (cfg : Config)
    (t : TaskItem) : Except PyErr (TaskItem × List Effect) := do
  let last := getLastOccurrence eng now t
  let nextStr := getNextOccurrence eng now t
  let nextDt ← match nextStr with
    | Option.none => Except.ok (Option.none : Option DT)
    | some s => parseDatevalueToParseddate s
  let t ←
    if t.due_date.truthy ∧ last.isSome then do
      let nd ← normalizeForField now t.due_date "due_date"
      match nd with
      | some ndd =>
          match last, nextDt with
          | some l, some nx =>
              pure { t with due_date := .dt (nx.addSecs (ndd.toSecs - l.toSecs)) }
          | _, _ => throw (.typeError "unsupported operand types for timedelta addition")
      | Option.none => pure { t with due_date := Val.none }
    else pure { t with due_date := Val.none }
  let t := { t with do_date := optToVal nextDt, done := .b false,
                    completed_at := Val.none }
  let t := saveTaskAbs vault cfg.tasks t
  pure (t, [Effect.save cfg.tasks])

/-- TaskProcessor.process_active_task over the abstract repository.  The
returned effects record which store mutations were requested. -/
def processActiveTask (eng : CronEngine) (now : DT) (vault : FsPath) (cfg : Config)
    (t : TaskItem) : Except PyErr (TaskItem × List Effect) :=
  if t.done.truthy ∧ t.repeat_task.truthy then resetRepeatingTask eng now vault cfg t
  else
    let t := if t.done.truthy ∧ t.completed_at.truthy = false then
               { t with completed_at := .dt now } else t
    let t := if t.completed_at.truthy ∧ t.done.truthy = false then
               { t with completed_at := Val.none } else t
    if t.done.truthy ∧ t.completed_at.truthy then do
      let t ← moveNoteAbs vault t cfg.completed_tasks
      pure (t, [Effect.move cfg.completed_tasks])
    else do
      let nd ← normalizeForField now t.do_date "do_date"
      let t := match nd with
        | Option.none => { t with do_date := .dt now }
        | some x => if x.day < now.day then { t with do_date := .dt now }
                    else { t with do_date := .dt x }
      pure (saveTaskAbs vault cfg.tasks t, [Effect.save cfg.tasks])

/-- Python equality of a bool against an arbitrary value: equal only
when the other value is the same bool. -/
def pyEqBool (x : Bool) (v : Val) : Bool :=
  match v with
  | .b y => x = y
  | _ => false

/-- TaskProcessor.process_completed_task over the abstract repository. -/
def processCompletedTask (now : DT) (vault : FsPath) (cfg : Config) (retent : Int)
    (t : TaskItem) : Except PyErr (TaskItem × List Effect) :=
  let t := if t.done.truthy ∧ t.completed_at.truthy = false then
             { t with completed_at := .dt now } else t
  if t.completed_at.truthy ∧ t.done.truthy = false then do
    let t := { t with completed_at := Val.none }
    let t ← moveNoteAbs vault t cfg.tasks
    pure (t, [Effect.move cfg.tasks])
  else
    let t := if pyEqBool (t.content = "") t.is_project then
               { t with is_project := .b (t.is_project.truthy = false) } else t
    match t.completed_at with
    | .dt c =>
        if t.done.truthy ∧ (now.toSecs - c.toSecs).ediv 86400 > retent then
          if t.is_project.truthy = false then
            .ok ({ t with source_path := Option.none }, [Effect.delete])
          else
            .ok ({ t with source_path := Option.none },
                 [Effect.archiveItem cfg.archive, Effect.delete])
        else .ok (t, [])
    | _ => .ok (t, [])

/-- Structured content of a stored file: a parsed frontmatter block plus
body, or text the YAML layer cannot parse. -/
inductive Content
  | note (fm : List (String × Val)) (body : String)
  | malformed (s : String)
  deriving Repr, DecidableEq

/-- Filesystem node: a directory or a regular file. -/
inductive Node
  | dir
  | file (c : Content)
  deriving Repr, DecidableEq

/-- Filesystem state: an association list from paths to nodes, first
match winning. -/
abbrev FS := List (FsPath × Node)

/-- Node at a path, if any. -/
def fsLookup (fs : FS) (p : FsPath) : Option Node :=
  (List.find? (fun e => e.1 = p) fs).map (fun e => e.2)

/-- Remove every entry at the given path. -/
def fsRemove (fs : FS) (p : FsPath) : FS :=
  fs.filter (fun e => decide (e.1 ≠ p))

/-- Install a node at a path, replacing any previous entry. -/
def fsSet (fs : FS) (p : FsPath) (n : Node) : FS :=
  (p, n) :: fsRemove fs p

/-- All nonempty leading sub-paths of a path, shortest first. -/
def pathPrefixes (p : FsPath) : List FsPath :=
  (List.range p.length).map (fun i => p.take (i + 1))

/-- Worker for mkdir with parents=True and exist_ok=True: create each
missing ancestor as a directory; an existing regular file anywhere on
the way raises FileExistsError. -/
def mkdirGo (fs : FS) : List FsPath → Except PyErr FS
  | [] => .ok fs
  | q :: rest =>
      match fsLookup fs q with
      | some Node.dir => mkdirGo fs rest
      | some (Node.file _) => .error (.osError .fileExists (strPath q))
      | Option.none => mkdirGo (fsSet fs q Node.dir) rest

/-- Python Path.mkdir(parents=True, exist_ok=True). -/
def mkdirParents (fs : FS) (p : FsPath) : Except PyErr FS :=
  mkdirGo fs (pathPrefixes p)

/-- Python open(p, "w") followed by a full write: requires the parent to
be a directory and the path not to be a directory. -/
def openWriteFs (fs : FS) (p : FsPath) (c : Content) : Except PyErr FS :=
  match fsLookup fs p.dropLast with
  | some Node.dir =>
      match fsLookup fs p with
      | some Node.dir => .error (.osError .isADirectory (strPath p))
      | _ => .ok (fsSet fs p (Node.file c))
  | some (Node.file _) => .error (.osError .notADirectory (strPath p))
  | Option.none => .error (.osError .fileNotFound (strPath p))

/-- tempfile.mkstemp at a chosen fresh path: creates an empty file in
the target directory. -/
def createTempFile (fs : FS) (p : FsPath) : Except PyErr FS :=
  match fsLookup fs p.dropLast with
  | some Node.dir =>
      match fsLookup fs p with
      | Option.none => .ok (fsSet fs p (Node.file (Content.note [] "")))
      | some _ => .error (.osError .fileExists (strPath p))
  | some (Node.file _) => .error (.osError .notADirectory (strPath p))
  | Option.none => .error (.osError .fileNotFound (strPath p))

/-- Python Path.unlink(). -/
def unlinkFs (fs : FS) (p : FsPath) : Except PyErr FS :=
  match fsLookup fs p with
  | some (Node.file _) => .ok (fsRemove fs p)
  | some Node.dir => .error (.osError .isADirectory (strPath p))
  | Option.none => .error (.osError .fileNotFound (strPath p))

/-- Python Path.unlink(missing_ok=True), with OS failures swallowed as
in the lock cleanup paths. -/
def unlinkMissingOk (fs : FS) (p : FsPath) : FS :=
  match fsLookup fs p with
  | some (Node.file _) => fsRemove fs p
  | _ => fs

/-- Python Path.replace(dst): an atomic rename that overwrites dst. -/
def replaceFs (fs : FS) (src dst : FsPath) : Except PyErr FS :=
  match fsLookup fs src with
  | Option.none => .error (.osError .fileNotFound (strPath src))
  | some n =>
      match fsLookup fs dst.dropLast with
      | some Node.dir => .ok (fsSet (fsRemove fs src) dst n)
      | _ => .error (.osError .fileNotFound (strPath dst))

/-- Observable events of the locking stack. -/
inductive Ev
  | attemptCall (i : Nat)
  | sleepFor (seconds : Rat)
  | platformLock (p : FsPath)
  | platformUnlock (p : FsPath)
  deriving Repr, DecidableEq

/-- Sidecar lock path: the target path with .lock appended to its
name (Path.with_suffix over the existing suffix). -/
def lockPathOf (p : FsPath) : FsPath := p.dropLast ++ [lastSeg p ++ ".lock"]

/-- Backoff delay the Retrier computes before a following attempt. -/
def computeDelay (base maxDelay : Rat) (attempt : Nat) : Rat :=
  min (base * 2 ^ attempt) maxDelay

/-- Worker for Retrier.execute: run the operation with the attempt
index, return the first success or the last error.  The delay between
attempts is computed and logged by the source but never slept, so no
sleepFor event is ever emitted. -/
def retrierGo {α : Type} (base maxDelay : Rat)
    (op : Nat → FS → Except PyErr α × FS × List Ev) :
    Nat → Nat → FS → List Ev → Except PyErr α × FS × List Ev
  | 0, _, fs, acc =>
      (.error (.runtimeError "All retry attempt fail, but no exception was captured"),
       fs, acc)
  | fuel + 1, i, fs, acc =>
      match op i fs with
      | (.ok a, fs1, tr) => (.ok a, fs1, acc ++ [Ev.attemptCall i] ++ tr)
      | (.error e, fs1, tr) =>
          if fuel = 0 then (.error e, fs1, acc ++ [Ev.attemptCall i] ++ tr)
          else
            let _ := computeDelay base maxDelay i
            retrierGo base maxDelay op fuel (i + 1) fs1 (acc ++ [Ev.attemptCall i] ++ tr)

/-- Retrier.execute with the given attempt budget and delay bounds. -/
def retrierExecute {α : Type} (maxAttempts : Nat) (base maxDelay : Rat)
    (op : Nat → FS → Except PyErr α × FS × List Ev) (fs : FS) :
    Except PyErr α × FS × List Ev :=
  retrierGo base maxDelay op maxAttempts 0 fs []

/-- VaultConcurrencyError raised by FileLocker.acquire_write_lock. -/
def concErrFor (p : FsPath) (cause : PyErr) : PyErr :=
  .vaultConcurrencyError ("Failed to acquire write lock for " ++ strPath p)
    (strPath p) (some cause)

/-- Entry of LockFile.acquire up to its yield: ensure the lock
directory, open the sidecar lock file, take the platform lock.  A
failing flock runs the finally block, which unlocks and removes the
lock file, before the error propagates. -/
def lockFileEnter (oracle : FsPath → Bool) (target : FsPath) (fs : FS) :
    Except PyErr Unit × FS × List Ev :=
  let lp := lockPathOf target
  match mkdirParents fs lp.dropLast with
  | .error e => (.error e, fs, [])
  | .ok fs1 =>
      match openWriteFs fs1 lp (Content.note [] "") with
      | .error e => (.error e, fs1, [])
      | .ok fs2 =>
          if oracle lp then (.ok (), fs2, [Ev.platformLock lp])
          else
            (.error (.osError .wouldBlock (strPath lp)), unlinkMissingOk fs2 lp,
             [Ev.platformLock lp, Ev.platformUnlock lp])

/-- Exit of LockFile.acquire: unlock and delete the lock file, failures
logged and swallowed. -/
def lockFileRelease (target : FsPath) (fs : FS) : FS × List Ev :=
  (unlinkMissingOk fs (lockPathOf target), [Ev.platformUnlock (lockPathOf target)])

/-- FileLocker.acquire_write_lock around a critical section.  The
Retrier is handed only the construction of the LockFile context
manager, which cannot fail; the acquisition itself runs exactly once
at with-entry.  Every exception leaving the with block, including one
raised by the critical section body, is caught and rewrapped as a
VaultConcurrencyError naming the target path. -/
def acquireWriteLock {α : Type} (oracle : FsPath → Bool) (target : FsPath)
    (body : FS → Except PyErr α × FS × List Ev) (fs : FS) :
    Except PyErr α × FS × List Ev :=
  match retrierExecute 5 1 5 (fun _ g => (.ok (), g, [])) fs with
  | (.error e, fs0, tr0) => (.error (concErrFor target e), fs0, tr0)
  | (.ok _, fs0, tr0) =>
      match lockFileEnter oracle target fs0 with
      | (.error e, fs1, tr1) => (.error (concErrFor target e), fs1, tr0 ++ tr1)
      | (.ok _, fs1, tr1) =>
          match body fs1 with
          | (.ok a, fs2, tr2) =>
              let r := lockFileRelease target fs2
              (.ok a, r.1, tr0 ++ tr1 ++ tr2 ++ r.2)
          | (.error e, fs2, tr2) =>
              let r := lockFileRelease target fs2
              (.error (concErrFor target e), r.1, tr0 ++ tr1 ++ tr2 ++ r.2)

/-- FileLocker.acquire_read_lock: logs and yields; no lock file, no
platform lock, no retry, no state change. -/
def acquireReadLock {α : Type} (body : FS → Except PyErr α × FS × List Ev)
    (fs : FS) : Except PyErr α × FS × List Ev :=
  body fs

/-- AtomicFileOperations.atomic_write: under the write lock, create the
temp file, run the producer, and rename onto the target; a failing
producer has its temp file removed and its error re-raised. -/
def atomicWrite {α : Type} (oracle : FsPath → Bool) (target tempPath : FsPath)
    (producer : FS → Except PyErr α × FS) (fs : FS) :
    Except PyErr α × FS × List Ev :=
  acquireWriteLock oracle target (fun fs1 =>
    match createTempFile fs1 tempPath with
    | .error e => (.error e, fs1, [])
    | .ok fs2 =>
        match producer fs2 with
        | (.ok a, fs3) =>
            match replaceFs fs3 tempPath target with
            | .ok fs4 => (.ok a, fs4, [])
            | .error e => (.error e, fs3, [])
        | (.error e, fs3) => (.error e, unlinkMissingOk fs3 tempPath, [])) fs

/-- Model of frontmatter.load on a stored file. -/
def frontmatterLoad : Content → Except PyErr (List (String × Val) × String)
  | .note fm body => .ok (fm, body)
  | .malformed s => .error (.yamlError s)

/-- VaultManager._atomic_read_note: a missing path raises
FileNotFoundError before the try block; OS failures while opening are
wrapped into a read VaultFileOperationError; YAML failures are not
OSError and propagate bare. -/
def atomicReadNote (fs : FS) (p : FsPath) :
    Except PyErr (List (String × Val) × String) :=
  match fsLookup fs p with
  | Option.none => .error (.osError .fileNotFound ("Note not found: " ++ strPath p))
  | some Node.dir =>
      .error (.vaultFileOperationError "read" (strPath p)
        (some (.osError .isADirectory (strPath p))))
  | some (Node.file c) => frontmatterLoad c

/-- Python Path.stem: the final segment without its last extension; a
name with no dot is returned whole. -/
def stemOf (name : String) : String :=
  let rev := name.data.reverse
  if rev.all (fun c => c ≠ Char.ofNat 46) then name
  else String.mk (((rev.dropWhile (fun c => c ≠ Char.ofNat 46)).drop 1).reverse)

/-- VaultManager.read_note: read under the no-op read lock, then build
the item, whose frontmatter sync may itself raise. -/
def readNote (now : DT) (p : FsPath) (fs : FS) :
    Except PyErr TaskItem × FS × List Ev :=
  match acquireReadLock (fun g =>
      match atomicReadNote g p with
      | .ok post => (.ok post, g, [])
      | .error e => (.error e, g, [])) fs with
  | (.error e, fs1, tr) => (.error e, fs1, tr)
  | (.ok post, fs1, tr) =>
      match mkTaskItem now (stemOf (lastSeg p)) post.2 post.1 (some p) with
      | .ok item => (.ok item, fs1, tr)
      | .error e => (.error e, fs1, tr)

/-- Deterministic model of the mkstemp name chosen inside the target
directory. -/
def tempPathOf (target : FsPath) : FsPath :=
  target.dropLast ++ [".tmp_" ++ lastSeg target ++ "_0"]

/-- VaultManager._write_item_to_file: the item is serialized to
path / (title ++ ".md"), where path is the temp file yielded by
atomic_write. -/
def writeItemToFile (item : TaskItem) (path : FsPath) (fs : FS) :
    Except PyErr Unit × FS :=
  match openWriteFs fs (path ++ [item.title ++ ".md"])
      (Content.note item.frontmatter item.content) with
  | .ok fs1 => (.ok (), fs1)
  | .error e => (.error e, fs)

/-- VaultManager.write_note composed with _atomic_write_note: the target
directory is created outside any handler, then the atomic write runs
with every failure wrapped into a write VaultFileOperationError. -/
def writeNote (oracle : FsPath → Bool) (vault : FsPath) (item : TaskItem)
    (targetDir : String) (fs : FS) :
    Except PyErr (TaskItem × FsPath) × FS × List Ev :=
  match mkdirParents fs (vault ++ [targetDir]) with
  | .error e => (.error e, fs, [])
  | .ok fs1 =>
      let filePath := writeNotePath vault targetDir item.title
      match atomicWrite oracle filePath (tempPathOf filePath)
          (writeItemToFile item (tempPathOf filePath)) fs1 with
      | (.ok _, fs2, tr) =>
          (.ok ({ item with source_path := some filePath }, filePath), fs2, tr)
      | (.error e, fs2, tr) =>
          (.error (.vaultFileOperationError "write" (strPath filePath) (some e)),
           fs2, tr)

/-- VaultManager._atomic_move_note: both paths locked in lexicographic
order of their string form, then the rename. -/
def atomicMoveNote (oracle : FsPath → Bool) (src dst : FsPath) (fs : FS) :
    Except PyErr Unit × FS × List Ev :=
  let a := if pyStrLe (strPath src) (strPath dst) then src else dst
  let b := if pyStrLe (strPath src) (strPath dst) then dst else src
  acquireWriteLock oracle a (fun fs1 =>
    acquireWriteLock oracle b (fun fs2 =>
      match replaceFs fs2 src dst with
      | .ok fs3 => (.ok (), fs3, [])
      | .error e => (.error e, fs2, [])) fs1) fs

/-- VaultManager.move_note at the filesystem level: resolve the
destination (creating its directory outside any handler), no-op when
source equals destination, otherwise rename under the pairwise locks;
only OSError is rewrapped as a move VaultFileOperationError. -/
def moveNoteFull (oracle : FsPath → Bool) (vault : FsPath) (item : TaskItem)
    (destDir : String) (fs : FS) : Except PyErr TaskItem × FS × List Ev :=
  match item.source_path with
  | Option.none =>
      (.error (.valueError ("Item " ++ item.title ++ " has no source file path. " ++
        "This operation requires the item to be saved first.")), fs, [])
  | some src =>
      match mkdirParents fs (vault ++ [destDir]) with
      | .error e => (.error e, fs, [])
      | .ok fs1 =>
          let dest := vault ++ [destDir, lastSeg src]
          if src = dest then (.ok item, fs1, [])
          else
            match atomicMoveNote oracle src dest fs1 with
            | (.ok _, fs2, tr) => (.ok { item with source_path := some dest }, fs2, tr)
            | (.error e, fs2, tr) =>
                if e.isOSError then
                  (.error (.vaultFileOperationError "move"
                    (strPath src ++ " -> " ++ strPath dest) (some e)), fs2, tr)
                else (.error e, fs2, tr)

/-- VaultManager.delete_note with _atomic_delete_note: unlink under the
write lock; only OSError is rewrapped as a delete
VaultFileOperationError. -/
def deleteNoteFull (oracle : FsPath → Bool) (item : TaskItem) (fs : FS) :
    Except PyErr TaskItem × FS × List Ev :=
  match item.source_path with
  | Option.none =>
      (.error (.valueError ("Item " ++ item.title ++ " has no source file path. " ++
        "This operation requires the item to be saved first.")), fs, [])
  | some p =>
      match acquireWriteLock oracle p (fun fs1 =>
          match unlinkFs fs1 p with
          | .ok fs2 => (.ok { item with source_path := Option.none }, fs2, [])
          | .error e => (.error e, fs1, [])) fs with
      | (.ok it, fs2, tr) => (.ok it, fs2, tr)
      | (.error e, fs2, tr) =>
          if e.isOSError then
            (.error (.vaultFileOperationError "delete" (strPath p) (some e)), fs2, tr)
          else (.error e, fs2, tr)

/-- Whether a filesystem entry is a regular file named *.md directly
inside the directory. -/
def isMdFileIn (dir : FsPath) (e : FsPath × Node) : Bool :=
  (match e.2 with
   | Node.file _ => true
   | Node.dir => false) &&
  decide (e.1.length = dir.length + 1) &&
  decide (e.1.take dir.length = dir) &&
  endsWithMd (lastSeg e.1)

/-- Python Path.glob of *.md inside a directory, in filesystem order. -/
def globMd (fs : FS) (dir : FsPath) : List FsPath :=
  (fs.filter (isMdFileIn dir)).map (fun e => e.1)

/-- Worker for VaultManager.get_notes: read each file, skipping only
FileNotFoundError and VaultFileOperationError; any other error (such
as a ValueError from date normalization or a YAML failure) propagates
and aborts the listing. -/
def getNotesGo (now : DT) (fs : FS) : List FsPath → Except PyErr (List TaskItem)
  | [] => .ok []
  | f :: rest =>
      match (readNote now f fs).1 with
      | .ok item => (getNotesGo now fs rest).map (fun l => item :: l)
      | .error (.osError .fileNotFound _) => getNotesGo now fs rest
      | .error (.vaultFileOperationError _ _ _) => getNotesGo now fs rest
      | .error e => .error e

/-- VaultManager.get_notes over a folder of the vault. -/
def getNotes (now : DT) (vault : FsPath) (folder : String) (fs : FS) :
    Except PyErr (List TaskItem) :=
  getNotesGo now fs (globMd fs (vault ++ [folder]))

/-- Event classifying helper: a sleep performed by the retrier. -/
def Ev.isSleep : Ev → Bool
  | .sleepFor _ => true
  | _ => false

/-- Event classifying helper: one invocation of the retried operation. -/
def Ev.isAttempt : Ev → Bool
  | .attemptCall _ => true
  | _ => false

/-- Event classifying helper: one platform level exclusive lock call. -/
def Ev.isPlatformLock : Ev → Bool
  | .platformLock _ => true
  | _ => false

/-- Oracle of an uncontended filesystem: every flock succeeds. -/
def alwaysFree : FsPath → Bool := fun _ => true

/-- Oracle of a contended path: every flock fails immediately. -/
def alwaysHeld : FsPath → Bool := fun _ => false

/-- Reference instant used by the concrete scenarios. -/
def wNow : DT := ⟨20000, 36000⟩

/-- Folder configuration used by the concrete scenarios. -/
def wCfg : Config := ⟨"tasks", "completed", "archive"⟩

/-- Vault root used by the concrete scenarios. -/
def wVault : FsPath := ["vault"]

/-- Concrete cron engine: previous fire at 09:00 today, next fire at
09:00 tomorrow. -/
def wEngine : CronEngine :=
  ⟨fun _ t => ⟨t.day, 32400⟩, fun _ t => ⟨t.day + 1, 32400⟩⟩

/-- Vault with an existing empty tasks directory. -/
def c1fs : FS := [(["vault"], Node.dir), (["vault", "tasks"], Node.dir)]

/-- Plain unpersisted task. -/
def c1task : TaskItem := TaskItem.raw "T" "body" [] Option.none

/-- Target, temp and initial filesystem of the atomic write scenario. -/
def wTarget : FsPath := ["v", "t", "a.md"]

/-- Sibling temp file chosen by mkstemp in the scenario. -/
def wTemp : FsPath := ["v", "t", ".tmp_a.md_0"]

/-- Producer that always fails without touching anything. -/
def wProducer : FS → Except PyErr Unit × FS :=
  fun g => (Except.error (PyErr.valueError "simulated io failure"), g)

/-- Filesystem holding an old version of the atomic write target. -/
def wFs : FS :=
  [(["v"], Node.dir), (["v", "t"], Node.dir),
   (["v", "t", "a.md"], Node.file (Content.note [] "old"))]

/-- Always failing operation handed to the retrier. -/
def failOp : Nat → FS → Except PyErr Unit × FS × List Ev :=
  fun _ g => (Except.error (PyErr.osError .wouldBlock "locked"), g, [])

/-- Persisted task whose backing file is missing. -/
def c4item : TaskItem :=
  { c1task with source_path := some ["vault", "tasks", "Gone.md"] }

/-- Vault where the tasks folder name is taken by a regular file. -/
def c4fsBad : FS :=
  [(["vault"], Node.dir), (["vault", "tasks"], Node.file (Content.note [] ""))]

/-- Folder with one parseable record and one record whose do_date value
matches no date format. -/
def c8fs : FS :=
  [(["vault"], Node.dir), (["vault", "tasks"], Node.dir),
   (["vault", "tasks", "a.md"], Node.file (Content.note [("done", Val.b true)] "x")),
   (["vault", "tasks", "b.md"],
    Node.file (Content.note [("do_date", Val.s (DStr.other "garbage"))] "y"))]

/-- Task with the given flags on top of the dataclass defaults. -/
def mkScenarioTask (done : Bool) (ca rp dd ud : Val) (src : Option FsPath) : TaskItem :=
  { TaskItem.raw "T" "body" [] src with
    done := .b done
    completed_at := ca
    repeat_task := rp
    do_date := dd
    due_date := ud }

/-- Completed repeating task with a due date three days past its
occurrence, as in the recurrence scenario. -/
def wTask5 : TaskItem :=
  mkScenarioTask true (.dt ⟨19999, 100⟩) (.s (.other "0 9 * * *"))
    (.dt ⟨20000, 32400⟩) (.dt ⟨20003, 86399⟩) (some ["vault", "tasks", "T.md"])

/-- Completed non repeating task in the active folder. -/
def wTask6 : TaskItem :=
  mkScenarioTask true (.dt ⟨19999, 100⟩) (.s .empty) (.s .empty) (.s .empty)
    (some ["vault", "tasks", "T.md"])

/-- Completed task with empty body and is_project false. -/
def c9task : TaskItem :=
  { mkScenarioTask true (.dt ⟨20000, 100⟩) (.s .empty) (.s .empty) (.s .empty)
      (some ["vault", "completed", "T.md"]) with content := "" }

/-- Folder holding only well formed records. -/
def c8okfs : FS :=
  [(["vault"], Node.dir), (["vault", "tasks"], Node.dir),
   (["vault", "tasks", "a.md"], Node.file (Content.note [("done", Val.b true)] "x"))]

/-- Expected task state after the recurrence reset of a repeating task,
computed from the task processor embedding. -/
def resetResult (eng : CronEngine) (now : DT) (vault : FsPath) (cfg : Config)
    (t : TaskItem) (nd : Option DT) : TaskItem :=
  { t with
    due_date := if t.due_date.truthy then
        (match nd with
         | some ndd => Val.dt (DT.addSecs ⟨(eng.nextOcc t.repeat_task now).day, 0⟩
             (ndd.toSecs - (eng.prevOcc t.repeat_task now).toSecs))
         | Option.none => Val.none)
      else Val.none
    do_date := Val.dt ⟨(eng.nextOcc t.repeat_task now).day, 0⟩
    done := Val.b false
    completed_at := Val.none
    source_path := some (writeNotePath vault cfg.tasks t.title) }

theorem fsLookup_cons (e : FsPath × Node) (rest : FS) (q : FsPath) :
    fsLookup (e :: rest) q = if e.1 = q then some e.2 else fsLookup rest q := by
  by_cases h : e.1 = q <;> simp [fsLookup, List.find?, h]

theorem fsRemove_cons (e : FsPath × Node) (rest : FS) (p : FsPath) :
    fsRemove (e :: rest) p = if e.1 = p then fsRemove rest p
      else e :: fsRemove rest p := by
  by_cases h : e.1 = p <;> simp [fsRemove, List.filter_cons, h]

theorem fsLookup_fsRemove_ne (fs : FS) (p q : FsPath) (h : q ≠ p) :
    fsLookup (fsRemove fs p) q = fsLookup fs q := by
  induction fs with
  | nil => rfl
  | cons e rest ih =>
      rw [fsRemove_cons, fsLookup_cons]
      by_cases he : e.1 = p
      · rw [if_pos he, ih, if_neg (fun hq => h (hq.symm.trans he))]
      · rw [if_neg he, fsLookup_cons, ih]

theorem fsLookup_fsRemove_self (fs : FS) (p : FsPath) :
    fsLookup (fsRemove fs p) p = Option.none := by
  induction fs with
  | nil => rfl
  | cons e rest ih =>
      rw [fsRemove_cons]
      by_cases he : e.1 = p
      · simpa [he] using ih
      · rw [if_neg he, fsLookup_cons, if_neg he]
        exact ih

theorem fsLookup_fsSet_self (fs : FS) (p : FsPath) (n : Node) :
    fsLookup (fsSet fs p n) p = some n := by
  simp [fsLookup, fsSet, List.find?]

theorem fsLookup_fsSet_ne (fs : FS) (p q : FsPath) (n : Node) (h : q ≠ p) :
    fsLookup (fsSet fs p n) q = fsLookup fs q := by
  unfold fsSet
  rw [fsLookup_cons]
  rw [if_neg (fun hq : p = q => h hq.symm)]
  exact fsLookup_fsRemove_ne fs p q h

theorem fsLookup_unlinkMissingOk_ne (fs : FS) (p q : FsPath) (h : q ≠ p) :
    fsLookup (unlinkMissingOk fs p) q = fsLookup fs q := by
  unfold unlinkMissingOk
  cases hp : fsLookup fs p with
  | none => rfl
  | some n => cases n with
      | dir => rfl
      | file c => exact fsLookup_fsRemove_ne fs p q h

theorem fsLookup_unlinkMissingOk_self (fs : FS) (p : FsPath)
    (h : fsLookup fs p ≠ some Node.dir) :
    fsLookup (unlinkMissingOk fs p) p = Option.none := by
  unfold unlinkMissingOk
  cases hp : fsLookup fs p with
  | none => exact hp
  | some n => cases n with
      | dir => exact absurd hp h
      | file c => exact fsLookup_fsRemove_self fs p

theorem mkdirGo_frame (l : List FsPath) (fs fs1 : FS) (r : FsPath)
    (h : ∀ q ∈ l, r ≠ q) (hok : mkdirGo fs l = .ok fs1) :
    fsLookup fs1 r = fsLookup fs r := by
  induction l generalizing fs with
  | nil =>
      simp only [mkdirGo] at hok
      cases hok
      rfl
  | cons q rest ih =>
      simp only [mkdirGo] at hok
      have hrq : r ≠ q := h q (List.mem_cons_self q rest)
      have hrest : ∀ x ∈ rest, r ≠ x := fun x hx => h x (List.mem_cons_of_mem q hx)
      cases hq : fsLookup fs q with
      | none =>
          rw [hq] at hok
          have := ih (fsSet fs q Node.dir) hrest hok
          rw [this, fsLookup_fsSet_ne fs q r Node.dir hrq]
      | some n =>
          cases n with
          | dir =>
              rw [hq] at hok
              exact ih fs hrest hok
          | file c =>
              rw [hq] at hok
              cases hok

theorem pathPrefixes_length_le (p q : FsPath) (h : q ∈ pathPrefixes p) :
    q.length ≤ p.length := by
  simp only [pathPrefixes, List.mem_map, List.mem_range] at h
  obtain ⟨i, _, rfl⟩ := h
  simp [List.length_take]

theorem lockPathOf_dropLast (p : FsPath) :
    (lockPathOf p).dropLast = p.dropLast := by
  simp [lockPathOf]

theorem openWriteFs_ok (fs fs1 : FS) (p : FsPath) (c : Content)
    (hok : openWriteFs fs p c = .ok fs1) : fs1 = fsSet fs p (Node.file c) := by
  unfold openWriteFs at hok
  cases hpar : fsLookup fs p.dropLast with
  | none => rw [hpar] at hok; cases hok
  | some n =>
      cases n with
      | dir =>
          rw [hpar] at hok
          cases hp : fsLookup fs p with
          | none => rw [hp] at hok; cases hok; rfl
          | some m =>
              cases m with
              | dir => rw [hp] at hok; cases hok
              | file c2 => rw [hp] at hok; cases hok; rfl
      | file c2 => rw [hpar] at hok; cases hok

theorem createTempFile_ok (fs fs1 : FS) (p : FsPath)
    (hok : createTempFile fs p = .ok fs1) :
    fs1 = fsSet fs p (Node.file (Content.note [] "")) := by
  unfold createTempFile at hok
  cases hpar : fsLookup fs p.dropLast with
  | none => rw [hpar] at hok; cases hok
  | some n =>
      cases n with
      | dir =>
          rw [hpar] at hok
          cases hp : fsLookup fs p with
          | none => rw [hp] at hok; cases hok; rfl
          | some m => rw [hp] at hok; cases hok
      | file c2 => rw [hpar] at hok; cases hok

theorem lockFileEnter_frame (oracle : FsPath → Bool) (target : FsPath) (fs : FS)
    (r : FsPath) (h1 : r ≠ lockPathOf target)
    (h2 : ∀ q ∈ pathPrefixes (lockPathOf target).dropLast, r ≠ q) :
    fsLookup (lockFileEnter oracle target fs).2.1 r = fsLookup fs r := by
  cases hmk : mkdirParents fs (lockPathOf target).dropLast with
  | error e => simp only [lockFileEnter, hmk]
  | ok fs1 =>
      have hfs1 : fsLookup fs1 r = fsLookup fs r :=
        mkdirGo_frame (pathPrefixes (lockPathOf target).dropLast) fs fs1 r h2 hmk
      cases hop : openWriteFs fs1 (lockPathOf target) (Content.note [] "") with
      | error e => simp only [lockFileEnter, hmk, hop]; exact hfs1
      | ok fs2 =>
          have hfs2 : fs2 = fsSet fs1 (lockPathOf target) (Node.file (Content.note [] "")) :=
            openWriteFs_ok fs1 fs2 (lockPathOf target) (Content.note [] "") hop
          by_cases hor : oracle (lockPathOf target) = true
          · simp only [lockFileEnter, hmk, hop, hor, if_true]
            rw [hfs2, fsLookup_fsSet_ne fs1 (lockPathOf target) r _ h1]
            exact hfs1
          · rw [Bool.not_eq_true] at hor
            simp only [lockFileEnter, hmk, hop, hor, Bool.false_eq_true, if_false]
            rw [fsLookup_unlinkMissingOk_ne _ _ _ h1, hfs2,
                fsLookup_fsSet_ne fs1 (lockPathOf target) r _ h1]
            exact hfs1

theorem acquireWriteLock_eq {α : Type} (oracle : FsPath → Bool) (target : FsPath)
    (body : FS → Except PyErr α × FS × List Ev) (fs : FS) :
    acquireWriteLock oracle target body fs =
      match lockFileEnter oracle target fs with
      | (Except.error e, fs1, tr1) =>
          (Except.error (concErrFor target e), fs1, [Ev.attemptCall 0] ++ tr1)
      | (Except.ok _, fs1, tr1) =>
          match body fs1 with
          | (Except.ok a, fs2, tr2) =>
              (Except.ok a, (lockFileRelease target fs2).1,
               [Ev.attemptCall 0] ++ tr1 ++ tr2 ++ (lockFileRelease target fs2).2)
          | (Except.error e, fs2, tr2) =>
              (Except.error (concErrFor target e), (lockFileRelease target fs2).1,
               [Ev.attemptCall 0] ++ tr1 ++ tr2 ++ (lockFileRelease target fs2).2) := by
  have hr : retrierExecute 5 1 5
      (fun (_ : Nat) (g : FS) => ((Except.ok () : Except PyErr Unit), g, ([] : List Ev)))
      fs = (Except.ok (), fs, [Ev.attemptCall 0]) := rfl
  rcases h : lockFileEnter oracle target fs with ⟨res, fs1, tr1⟩
  cases res with
  | error e => simp [acquireWriteLock, hr, h]
  | ok u =>
      rcases hb : body fs1 with ⟨resb, fs2, tr2⟩
      cases resb with
      | ok a => simp [acquireWriteLock, hr, h, hb]
      | error e => simp [acquireWriteLock, hr, h, hb]

/-- C2: for every target path and every content producer that only
touches its temp file, if the producer fails during an atomic write
then the temporary file is deleted and the target path keeps exactly
its previous content (in particular, an absent target stays absent). -/
theorem C2_atomic_write_failed_producer_frame
    (oracle : FsPath → Bool) (target temp : FsPath)
    (producer : FS → Except PyErr Unit × FS) (fs : FS)
    (htarget : target ≠ []) (htemp : temp ≠ [])
    (hsib : temp.dropLast = target.dropLast)
    (hnt : temp ≠ target)
    (hnl : temp ≠ lockPathOf target)
    (htl : target ≠ lockPathOf target)
    (hfresh : fsLookup fs temp = Option.none)
    (hfail : ∀ g, ∃ e, (producer g).1 = Except.error e)
    (hframe : ∀ g p, p ≠ temp → fsLookup (producer g).2 p = fsLookup g p)
    (hnodir : ∀ g, fsLookup g temp ≠ some Node.dir →
        fsLookup (producer g).2 temp ≠ some Node.dir) :
    (∃ e, (atomicWrite oracle target temp producer fs).1 = Except.error e) ∧
    fsLookup (atomicWrite oracle target temp producer fs).2.1 target
      = fsLookup fs target ∧
    fsLookup (atomicWrite oracle target temp producer fs).2.1 temp = Option.none := by
  have hlen : ∀ q ∈ pathPrefixes (lockPathOf target).dropLast, temp ≠ q ∧ target ≠ q := by
    intro q hq
    have hle := pathPrefixes_length_le (lockPathOf target).dropLast q hq
    rw [lockPathOf_dropLast, List.length_dropLast] at hle
    have h1 : 0 < target.length := List.length_pos.mpr htarget
    have h2 : temp.length = target.length := by
      have h3 : temp.dropLast.length = target.dropLast.length := by rw [hsib]
      rw [List.length_dropLast, List.length_dropLast] at h3
      have h4 : 0 < temp.length := List.length_pos.mpr htemp
      omega
    constructor
    · intro he; rw [he] at h2; omega
    · intro he; rw [← he] at hle; omega
  have hA : fsLookup (lockFileEnter oracle target fs).2.1 target = fsLookup fs target :=
    lockFileEnter_frame oracle target fs target htl (fun q hq => (hlen q hq).2)
  have hB : fsLookup (lockFileEnter oracle target fs).2.1 temp = fsLookup fs temp :=
    lockFileEnter_frame oracle target fs temp hnl (fun q hq => (hlen q hq).1)
  rw [atomicWrite, acquireWriteLock_eq]
  rcases henter : lockFileEnter oracle target fs with ⟨res1, fs1, tr1⟩
  rw [henter] at hA hB
  cases res1 with
  | error e =>
      exact ⟨⟨concErrFor target e, rfl⟩, hA, hB.trans hfresh⟩
  | ok u =>
      cases hct : createTempFile fs1 temp with
      | error e =>
          simp only [hct]
          refine ⟨⟨concErrFor target e, rfl⟩, ?_, ?_⟩
          · rw [lockFileRelease, fsLookup_unlinkMissingOk_ne _ _ _ htl]
            exact hA
          · rw [lockFileRelease, fsLookup_unlinkMissingOk_ne _ _ _ hnl]
            exact hB.trans hfresh
      | ok fs2 =>
          have hfs2 : fs2 = fsSet fs1 temp (Node.file (Content.note [] "")) :=
            createTempFile_ok fs1 fs2 temp hct
          obtain ⟨e0, he0⟩ := hfail fs2
          rcases hprod : producer fs2 with ⟨presb, fs3⟩
          rw [hprod] at he0
          simp only at he0
          subst he0
          simp only [hct, hprod]
          have hfs3t : fsLookup fs3 target = fsLookup fs target := by
            have := hframe fs2 target (Ne.symm hnt)
            rw [hprod] at this
            simp only at this
            rw [this, hfs2, fsLookup_fsSet_ne fs1 temp target _ (Ne.symm hnt)]
            exact hA
          have hfs3temp : fsLookup fs3 temp ≠ some Node.dir := by
            have := hnodir fs2 (by
              rw [hfs2, fsLookup_fsSet_self]
              intro hcon
              cases hcon)
            rw [hprod] at this
            exact this
          refine ⟨⟨concErrFor target e0, rfl⟩, ?_, ?_⟩
          · rw [lockFileRelease, fsLookup_unlinkMissingOk_ne _ _ _ htl,
                fsLookup_unlinkMissingOk_ne _ _ _ (Ne.symm hnt)]
            exact hfs3t
          · rw [lockFileRelease, fsLookup_unlinkMissingOk_ne _ _ _ hnl]
            exact fsLookup_unlinkMissingOk_self fs3 temp hfs3temp

/-- C1: the write path of the vault store can never persist a record:
for the plain task written into an existing tasks directory, write_note
raises a write VaultFileOperationError whose root cause is the
NotADirectoryError produced by serializing the item to
temp_file/title.md, and no file ever appears at the target path, so
the write-then-read round trip fails for every task. -/
theorem C1_write_round_trip_impossible :
    (writeNote alwaysFree wVault c1task "tasks" c1fs).1
      = Except.error (PyErr.vaultFileOperationError "write" "vault/tasks/T.md"
          (some (PyErr.vaultConcurrencyError
            "Failed to acquire write lock for vault/tasks/T.md" "vault/tasks/T.md"
            (some (PyErr.osError OSErrKind.notADirectory
              "vault/tasks/.tmp_T.md_0/T.md"))))) ∧
    fsLookup (writeNote alwaysFree wVault c1task "tasks" c1fs).2.1
      ["vault", "tasks", "T.md"] = Option.none := by
  exact ⟨rfl, rfl⟩

/-- C3: on a contended path the lock acquirer performs exactly one
platform lock attempt and raises a ConcurrencyError naming the path at
once, never sleeping; and the Retrier itself, even on an always
failing operation, performs its five attempts back to back without a
single sleep between them. -/
theorem C3_no_backoff_single_acquisition_attempt :
    ((retrierExecute 5 1 5 failOp c1fs).1
        = Except.error (PyErr.osError .wouldBlock "locked") ∧
     (retrierExecute 5 1 5 failOp c1fs).2.2.countP Ev.isAttempt = 5 ∧
     (retrierExecute 5 1 5 failOp c1fs).2.2.countP Ev.isSleep = 0) ∧
    ((acquireWriteLock alwaysHeld ["vault", "tasks", "T.md"]
        (fun g => (Except.ok (), g, [])) c1fs).1
        = Except.error (PyErr.vaultConcurrencyError
            "Failed to acquire write lock for vault/tasks/T.md" "vault/tasks/T.md"
            (some (PyErr.osError .wouldBlock "vault/tasks/T.md.lock"))) ∧
     (acquireWriteLock alwaysHeld ["vault", "tasks", "T.md"]
        (fun g => (Except.ok (), g, [])) c1fs).2.2.countP Ev.isPlatformLock = 1 ∧
     (acquireWriteLock alwaysHeld ["vault", "tasks", "T.md"]
        (fun g => (Except.ok (), g, [])) c1fs).2.2.countP Ev.isSleep = 0) := by
  exact ⟨⟨rfl, rfl, rfl⟩, ⟨rfl, rfl, rfl⟩⟩

/-- C4: OS level failures of the delete and move mutations reach the
caller as VaultConcurrencyError (the write lock wrapper catches the
critical section error), and a directory creation failure during write
reaches the caller as a bare OSError; neither is the promised
FileOperationError. -/
theorem C4_os_errors_cross_unwrapped :
    (deleteNoteFull alwaysFree c4item c1fs).1
      = Except.error (PyErr.vaultConcurrencyError
          "Failed to acquire write lock for vault/tasks/Gone.md"
          "vault/tasks/Gone.md"
          (some (PyErr.osError OSErrKind.fileNotFound "vault/tasks/Gone.md"))) ∧
    (moveNoteFull alwaysFree wVault c4item "completed" c1fs).1
      = Except.error (PyErr.vaultConcurrencyError
          "Failed to acquire write lock for vault/completed/Gone.md"
          "vault/completed/Gone.md"
          (some (PyErr.vaultConcurrencyError
            "Failed to acquire write lock for vault/tasks/Gone.md"
            "vault/tasks/Gone.md"
            (some (PyErr.osError OSErrKind.fileNotFound "vault/tasks/Gone.md"))))) ∧
    (writeNote alwaysFree wVault c1task "tasks" c4fsBad).1
      = Except.error (PyErr.osError OSErrKind.fileExists "vault/tasks") := by
  exact ⟨rfl, rfl, rfl⟩

/-- C8 counterexample: a folder holding one well formed record and one
record whose do_date value parses as no date makes the whole listing
raise the ValueError instead of returning the well formed record, so
one corrupt file hides the rest of the folder. -/
theorem C8_counterexample_listing_aborts :
    getNotes wNow wVault "tasks" c8fs
      = Except.error (PyErr.valueError "Invalid date format: garbage") ∧
    (∃ it, (readNote wNow ["vault", "tasks", "a.md"] c8fs).1 = Except.ok it) := by
  exact ⟨rfl, ⟨_, rfl⟩⟩

/-- C9 counterexample: a completed task with empty body content and
is_project false keeps is_project false through
process_completed_task, where the claim expects it to flip to true. -/
theorem C9_counterexample_empty_body_stays_nonproject :
    Except.map (fun r => r.1.is_project)
      (processCompletedTask wNow wVault wCfg 30 c9task) = Except.ok (Val.b false) ∧
    c9task.content = "" ∧ c9task.is_project = Val.b false := by
  exact ⟨rfl, rfl, rfl⟩

/-- Witness for the atomic write frame theorem at a concrete scenario. -/
theorem C2_atomic_write_failed_producer_frame_witness :
    (wTarget ≠ ([] : FsPath)) ∧ (wTemp ≠ ([] : FsPath)) ∧
    wTemp.dropLast = wTarget.dropLast ∧ wTemp ≠ wTarget ∧
    wTemp ≠ lockPathOf wTarget ∧ wTarget ≠ lockPathOf wTarget ∧
    fsLookup wFs wTemp = Option.none ∧
    ((∃ e, (atomicWrite alwaysFree wTarget wTemp wProducer wFs).1
        = Except.error e) ∧
     fsLookup (atomicWrite alwaysFree wTarget wTemp wProducer wFs).2.1 wTarget
        = fsLookup wFs wTarget ∧
     fsLookup (atomicWrite alwaysFree wTarget wTemp wProducer wFs).2.1 wTemp
        = Option.none) :=
  ⟨by decide, by decide, by decide, by decide, by decide, by decide, rfl,
   C2_atomic_write_failed_producer_frame alwaysFree wTarget wTemp wProducer wFs
     (by decide) (by decide) (by decide) (by decide) (by decide) (by decide) rfl
     (fun g => ⟨PyErr.valueError "simulated io failure", rfl⟩)
     (fun g p h => rfl)
     (fun g h => h)⟩

theorem parse_error_shape (s : DStr) (e : PyErr)
    (h : parseDatevalueToParseddate s = .error e) : ∃ m, e = .valueError m := by
  cases s with
  | empty => cases h
  | dOnly d => cases h
  | dHM d h1 m1 => cases h
  | dHMS d h1 m1 s1 => cases h
  | other s0 =>
      simp only [parseDatevalueToParseddate, Except.error.injEq] at h
      exact ⟨_, h.symm⟩

theorem normalize_error_shape (now : DT) (v : Val) (f : String) (e : PyErr)
    (h : normalizeForField now v f = .error e) : ∃ m, e = .valueError m := by
  cases v with
  | none => simp [normalizeForField] at h
  | b x => cases x <;> simp [normalizeForField, Val.truthy] at h
  | date d => simp [normalizeForField, Val.truthy] at h
  | dt x => simp [normalizeForField, Val.truthy] at h
  | s str =>
      cases str with
      | empty => simp [normalizeForField, Val.truthy] at h
      | dOnly d => simp [normalizeForField, Val.truthy, parseDatevalueToParseddate] at h
      | dHM d hh mm =>
          simp [normalizeForField, Val.truthy, parseDatevalueToParseddate] at h
      | dHMS d hh mm ss =>
          simp [normalizeForField, Val.truthy, parseDatevalueToParseddate] at h
      | other s0 =>
          simp [normalizeForField, Val.truthy, parseDatevalueToParseddate] at h
          exact ⟨_, h.symm⟩

theorem syncDateField_error_shape (now : DT) (fm : List (String × Val)) (f : String)
    (cur : Val) (e : PyErr) (h : syncDateField now fm f cur = .error e) :
    ∃ m, e = .valueError m := by
  cases hl : fmLookup fm f with
  | none => simp only [syncDateField, hl] at h; cases h
  | some v =>
      simp only [syncDateField, hl] at h
      cases hn : normalizeForField now v f with
      | error e2 =>
          rw [hn] at h
          simp only [Except.map] at h
          injection h with h2
          subst h2
          exact normalize_error_shape now v f e2 hn
      | ok o =>
          rw [hn] at h
          simp only [Except.map] at h
          cases h

theorem syncFromFrontmatter_error_shape (now : DT) (t : TaskItem) (e : PyErr)
    (h : syncFromFrontmatter now t = .error e) : ∃ m, e = .valueError m := by
  unfold syncFromFrontmatter at h
  simp only [bind, Except.bind] at h
  cases h1 : syncDateField now t.frontmatter "do_date" t.do_date with
  | error e1 =>
      simp only [h1] at h
      injection h with h2
      subst h2
      exact syncDateField_error_shape now t.frontmatter "do_date" t.do_date e1 h1
  | ok dd =>
      simp only [h1] at h
      cases h2 : syncDateField now t.frontmatter "due_date" t.due_date with
      | error e2 =>
          simp only [h2] at h
          injection h with h3
          subst h3
          exact syncDateField_error_shape now t.frontmatter "due_date" t.due_date e2 h2
      | ok ud =>
          simp only [h2] at h
          cases h3 : syncDateField now t.frontmatter "completed_at" t.completed_at with
          | error e3 =>
              simp only [h3] at h
              injection h with h4
              subst h4
              exact syncDateField_error_shape now t.frontmatter "completed_at"
                t.completed_at e3 h3
          | ok ca => simp only [h3] at h; cases h

theorem atomicReadNote_error_shape (fs : FS) (p : FsPath) (e : PyErr)
    (h : atomicReadNote fs p = .error e) : e.isConcurrency = false := by
  unfold atomicReadNote at h
  cases hl : fsLookup fs p with
  | none => rw [hl] at h; injection h with h2; subst h2; rfl
  | some n =>
      cases n with
      | dir => rw [hl] at h; injection h with h2; subst h2; rfl
      | file c =>
          rw [hl] at h
          cases c with
          | note fm body => cases h
          | malformed s => injection h with h2; subst h2; rfl

/-- C10: the read lock acquisition is a no-op: it hands the body the
unchanged state, and the full read path touches no lock (its event
trace is empty), leaves the filesystem unchanged, and never surfaces a
ConcurrencyError. -/
theorem C10_read_lock_noop (now : DT) (p : FsPath) (fs : FS) :
    (∀ (α : Type) (body : FS → Except PyErr α × FS × List Ev),
        acquireReadLock body fs = body fs) ∧
    (readNote now p fs).2.1 = fs ∧
    (readNote now p fs).2.2 = ([] : List Ev) ∧
    ∀ e, (readNote now p fs).1 = Except.error e → e.isConcurrency = false := by
  refine ⟨fun α body => rfl, ?_, ?_, ?_⟩
  · unfold readNote acquireReadLock
    cases har : atomicReadNote fs p with
    | error e => simp only [har]
    | ok post =>
        simp only [har]
        cases hmk : mkTaskItem now (stemOf (lastSeg p)) post.2 post.1 (some p) with
        | error e => simp only [hmk]
        | ok item => simp only [hmk]
  · unfold readNote acquireReadLock
    cases har : atomicReadNote fs p with
    | error e => simp only [har]
    | ok post =>
        simp only [har]
        cases hmk : mkTaskItem now (stemOf (lastSeg p)) post.2 post.1 (some p) with
        | error e => simp only [hmk]
        | ok item => simp only [hmk]
  · intro e he
    unfold readNote acquireReadLock at he
    cases har : atomicReadNote fs p with
    | error e2 =>
        simp only [har] at he
        injection he with h2
        subst h2
        exact atomicReadNote_error_shape fs p e2 har
    | ok post =>
        simp only [har] at he
        cases hmk : mkTaskItem now (stemOf (lastSeg p)) post.2 post.1 (some p) with
        | error e2 =>
            simp only [hmk] at he
            injection he with h2
            subst h2
            obtain ⟨m, rfl⟩ := syncFromFrontmatter_error_shape now _ e2 hmk
            rfl
        | ok item => simp only [hmk] at he; cases he

theorem normalize_falsy (now : DT) (v : Val) (f : String)
    (h : v.truthy = false) : normalizeForField now v f = .ok Option.none := by
  simp [normalizeForField, h]

theorem normalize_dt (now : DT) (x : DT) (f : String) :
    normalizeForField now (Val.dt x) f = .ok (some x) := by
  simp [normalizeForField, Val.truthy]

theorem lastSeg_append_two (v : FsPath) (a b : String) :
    lastSeg (v ++ [a, b]) = b := by
  simp [lastSeg]

theorem resetRepeatingTask_ok (eng : CronEngine) (now : DT) (vault : FsPath)
    (cfg : Config) (t : TaskItem) (nd : Option DT)
    (hr : t.repeat_task.truthy = true)
    (hn : normalizeForField now t.due_date "due_date" = .ok nd) :
    resetRepeatingTask eng now vault cfg t
      = .ok (resetResult eng now vault cfg t nd, [Effect.save cfg.tasks]) := by
  by_cases hd : t.due_date.truthy = true
  · cases nd with
    | none =>
        simp [resetRepeatingTask, getLastOccurrence, getNextOccurrence, hr, hd,
          parseDatevalueToParseddate, hn, resetResult, saveTaskAbs, optToVal,
          Except.instMonad, Except.bind, Except.map, Except.pure, Bind.bind, Pure.pure]
    | some ndd =>
        simp [resetRepeatingTask, getLastOccurrence, getNextOccurrence, hr, hd,
          parseDatevalueToParseddate, hn, resetResult, saveTaskAbs, optToVal,
          Except.instMonad, Except.bind, Except.map, Except.pure, Bind.bind, Pure.pure]
  · rw [Bool.not_eq_true] at hd
    simp [resetRepeatingTask, getLastOccurrence, getNextOccurrence, hr, hd,
      parseDatevalueToParseddate, resetResult, saveTaskAbs, optToVal,
      Except.instMonad, Except.bind, Except.map, Except.pure, Bind.bind, Pure.pure]

theorem resetRepeatingTask_err (eng : CronEngine) (now : DT) (vault : FsPath)
    (cfg : Config) (t : TaskItem) (e : PyErr)
    (hr : t.repeat_task.truthy = true)
    (hn : normalizeForField now t.due_date "due_date" = .error e) :
    resetRepeatingTask eng now vault cfg t = .error e := by
  have hd : t.due_date.truthy = true := by
    by_contra hcon
    rw [Bool.not_eq_true] at hcon
    rw [normalize_falsy now t.due_date "due_date" hcon] at hn
    cases hn
  simp [resetRepeatingTask, getLastOccurrence, getNextOccurrence, hr, hd,
    parseDatevalueToParseddate, hn,
    Except.instMonad, Except.bind, Except.map, Except.pure, Bind.bind, Pure.pure]

theorem processActive_reset_shape (eng : CronEngine) (now : DT) (vault : FsPath)
    (cfg : Config) (t : TaskItem)
    (hd : t.done.truthy = true) (hr : t.repeat_task.truthy = true) :
    processActiveTask eng now vault cfg t = resetRepeatingTask eng now vault cfg t := by
  simp [processActiveTask, hd, hr]

/-- C5: a done repeating task is reset: done becomes false, completedAt
is cleared, doDate becomes the next cron occurrence at date-only
granularity (midnight of its calendar date), dueDate becomes the new
occurrence plus the grace period between the normalized old due date
and the previous scheduled occurrence when a due date is present
(cleared otherwise), and the task is saved to the active tasks
folder. -/
theorem C5_recurrence_reset (eng : CronEngine) (now : DT) (vault : FsPath)
    (cfg : Config) (t : TaskItem) (nd : Option DT)
    (hd : t.done.truthy = true) (hr : t.repeat_task.truthy = true)
    (hn : normalizeForField now t.due_date "due_date" = .ok nd) :
    processActiveTask eng now vault cfg t
      = .ok (resetResult eng now vault cfg t nd, [Effect.save cfg.tasks]) ∧
    (resetResult eng now vault cfg t nd).done = Val.b false ∧
    (resetResult eng now vault cfg t nd).completed_at = Val.none ∧
    (resetResult eng now vault cfg t nd).do_date
      = Val.dt ⟨(eng.nextOcc t.repeat_task now).day, 0⟩ ∧
    (resetResult eng now vault cfg t nd).due_date
      = (if t.due_date.truthy then
          Option.elim nd Val.none (fun ndd =>
            Val.dt (DT.addSecs ⟨(eng.nextOcc t.repeat_task now).day, 0⟩
              (ndd.toSecs - (eng.prevOcc t.repeat_task now).toSecs)))
         else Val.none) ∧
    (resetResult eng now vault cfg t nd).source_path
      = some (writeNotePath vault cfg.tasks t.title) := by
  refine ⟨?_, rfl, rfl, rfl, ?_, rfl⟩
  · rw [processActive_reset_shape eng now vault cfg t hd hr]
    exact resetRepeatingTask_ok eng now vault cfg t nd hr hn
  · by_cases hdt : t.due_date.truthy = true
    · cases nd <;> simp [resetResult, hdt, Option.elim]
    · rw [Bool.not_eq_true] at hdt
      simp [resetResult, hdt]

/-- Witness for the recurrence reset theorem: the scenario task with a
due date three days past the previous occurrence ends with doDate at
the next occurrence date and dueDate carrying the grace period. -/
theorem C5_recurrence_reset_witness :
    (wTask5.done.truthy = true) ∧ (wTask5.repeat_task.truthy = true) ∧
    normalizeForField wNow wTask5.due_date "due_date"
      = .ok (some ⟨20003, 86399⟩) ∧
    (processActiveTask wEngine wNow wVault wCfg wTask5
      = .ok (resetResult wEngine wNow wVault wCfg wTask5 (some ⟨20003, 86399⟩),
             [Effect.save wCfg.tasks]) ∧
     (resetResult wEngine wNow wVault wCfg wTask5 (some ⟨20003, 86399⟩)).done
       = Val.b false ∧
     (resetResult wEngine wNow wVault wCfg wTask5 (some ⟨20003, 86399⟩)).completed_at
       = Val.none ∧
     (resetResult wEngine wNow wVault wCfg wTask5 (some ⟨20003, 86399⟩)).do_date
       = Val.dt ⟨(wEngine.nextOcc wTask5.repeat_task wNow).day, 0⟩ ∧
     (resetResult wEngine wNow wVault wCfg wTask5 (some ⟨20003, 86399⟩)).due_date
       = (if wTask5.due_date.truthy then
           Option.elim (some (⟨20003, 86399⟩ : DT)) Val.none (fun ndd =>
             Val.dt (DT.addSecs
               ⟨(wEngine.nextOcc wTask5.repeat_task wNow).day, 0⟩
               (ndd.toSecs - (wEngine.prevOcc wTask5.repeat_task wNow).toSecs)))
          else Val.none) ∧
     (resetResult wEngine wNow wVault wCfg wTask5 (some ⟨20003, 86399⟩)).source_path
       = some (writeNotePath wVault wCfg.tasks wTask5.title)) :=
  ⟨rfl, rfl, rfl,
   C5_recurrence_reset wEngine wNow wVault wCfg wTask5 (some ⟨20003, 86399⟩)
     rfl rfl rfl⟩

/-- C6: a done, completion-stamped, non repeating task is moved to the
completed tasks folder and nothing else happens: every field other
than the source path is unchanged and no save into the active folder
is requested. -/
theorem C6_completed_task_moved_untouched (eng : CronEngine) (now : DT)
    (vault : FsPath) (cfg : Config) (t : TaskItem) (p : FsPath)
    (hd : t.done.truthy = true) (hc : t.completed_at.truthy = true)
    (hr : t.repeat_task.truthy = false) (hs : t.source_path = some p) :
    processActiveTask eng now vault cfg t
      = .ok ({ t with source_path := some (vault ++ [cfg.completed_tasks, lastSeg p]) },
             [Effect.move cfg.completed_tasks]) := by
  by_cases hpd : p = vault ++ [cfg.completed_tasks, lastSeg p]
  · simp [processActiveTask, hd, hr, hc, moveNoteAbs, hs, ← hpd,
      Except.instMonad, Except.bind, Except.map, Except.pure, Bind.bind, Pure.pure]
    rw [← hs]
  · simp [processActiveTask, hd, hr, hc, moveNoteAbs, hs, hpd,
      Except.instMonad, Except.bind, Except.map, Except.pure, Bind.bind, Pure.pure]

/-- Witness for the completed task move theorem on the concrete
scenario task sitting in the active folder. -/
theorem C6_completed_task_moved_untouched_witness :
    (wTask6.done.truthy = true) ∧ (wTask6.completed_at.truthy = true) ∧
    (wTask6.repeat_task.truthy = false) ∧
    wTask6.source_path = some ["vault", "tasks", "T.md"] ∧
    processActiveTask wEngine wNow wVault wCfg wTask6
      = .ok ({ wTask6 with source_path := some (wVault ++
                 [wCfg.completed_tasks, lastSeg ["vault", "tasks", "T.md"]]) },
             [Effect.move wCfg.completed_tasks]) :=
  ⟨rfl, rfl, rfl, rfl,
   C6_completed_task_moved_untouched wEngine wNow wVault wCfg wTask6
     ["vault", "tasks", "T.md"] rfl rfl rfl rfl⟩

theorem truthy_dt (x : DT) : (Val.dt x).truthy = true := rfl

theorem truthy_none : (Val.none).truthy = false := rfl

theorem truthy_b (x : Bool) : (Val.b x).truthy = x := rfl

theorem truthy_date (d : Int) : (Val.date d).truthy = true := rfl

/-- C9 amended: on a pass of process_completed_task over a task that is
not reactivated and whose is_project holds a bool, is_project is
recomputed to whether the body content is nonempty: a task with
content becomes a project and a project without content stops being
one. -/
theorem C9_amended_is_project_tracks_content (now : DT) (vault : FsPath)
    (cfg : Config) (retent : Int) (t : TaskItem) (p0 : Bool)
    (hb : t.is_project = Val.b p0)
    (hnr : t.done.truthy = true ∨ t.completed_at.truthy = false) :
    Except.map (fun r => r.1.is_project)
      (processCompletedTask now vault cfg retent t)
      = Except.ok (Val.b (decide ¬(t.content = ""))) := by
  by_cases hdn : t.done.truthy = true
  · by_cases hcc : t.completed_at.truthy = true
    · cases hca : t.completed_at with
      | none => rw [hca] at hcc; simp [Val.truthy] at hcc
      | b x =>
          rw [hca] at hcc
          have hx : x = true := by simpa [Val.truthy] using hcc
          subst hx
          by_cases hcont : t.content = "" <;> cases p0 <;>
            simp [processCompletedTask, hdn, hca, hb, pyEqBool, hcont,
              truthy_dt, truthy_none, truthy_b, truthy_date, Except.map]
      | s x =>
          rw [hca] at hcc
          by_cases hcont : t.content = "" <;> cases p0 <;>
            simp [processCompletedTask, hdn, hca, hcc, hb, pyEqBool, hcont,
              truthy_dt, truthy_none, truthy_b, truthy_date, Except.map]
      | date d =>
          by_cases hcont : t.content = "" <;> cases p0 <;>
            simp [processCompletedTask, hdn, hca, hb, pyEqBool, hcont,
              truthy_dt, truthy_none, truthy_b, truthy_date, Except.map]
      | dt c =>
          by_cases hcont : t.content = "" <;> cases p0 <;>
            by_cases hret : retent < (now.toSecs - c.toSecs).ediv 86400 <;>
              simp [processCompletedTask, hdn, hca, hb, pyEqBool, hcont, hret,
                truthy_dt, truthy_none, truthy_b, truthy_date, Except.map]
    · rw [Bool.not_eq_true] at hcc
      by_cases hcont : t.content = "" <;> cases p0 <;>
        by_cases hret : retent < Int.ediv 0 86400 <;>
          simp [processCompletedTask, hdn, hcc, hb, pyEqBool, hcont, hret,
            truthy_dt, truthy_none, truthy_b, truthy_date, Except.map]
  · rw [Bool.not_eq_true] at hdn
    have hcf : t.completed_at.truthy = false := by
      rcases hnr with h | h
      · rw [hdn] at h; cases h
      · exact h
    by_cases hcont : t.content = "" <;> cases p0 <;>
      (simp [processCompletedTask, hdn, hcf, hb, pyEqBool, hcont,
         truthy_dt, truthy_none, truthy_b, truthy_date, Except.map]
       try (cases t.completed_at <;> simp [hb]))

/-- Witness for the amended is_project recomputation: the empty body
scenario task ends with is_project false, and the same task given body
content ends with is_project true. -/
theorem C9_amended_is_project_tracks_content_witness :
    (c9task.is_project = Val.b false) ∧
    (c9task.done.truthy = true ∨ c9task.completed_at.truthy = false) ∧
    Except.map (fun r => r.1.is_project)
      (processCompletedTask wNow wVault wCfg 30 c9task)
      = Except.ok (Val.b (decide ¬(c9task.content = ""))) :=
  ⟨rfl, Or.inl rfl,
   C9_amended_is_project_tracks_content wNow wVault wCfg 30 c9task false rfl
     (Or.inl rfl)⟩

theorem getNotesGo_spec (now : DT) (fs : FS) (l : List FsPath)
    (h : ∀ f ∈ l,
        (∃ it, (readNote now f fs).1 = Except.ok it) ∨
        (∃ m, (readNote now f fs).1
          = Except.error (PyErr.osError OSErrKind.fileNotFound m)) ∨
        (∃ o p c, (readNote now f fs).1
          = Except.error (PyErr.vaultFileOperationError o p c))) :
    getNotesGo now fs l
      = Except.ok (l.filterMap (fun f => ((readNote now f fs).1).toOption)) := by
  induction l with
  | nil => rfl
  | cons f rest ih =>
      have hf := h f (List.mem_cons_self f rest)
      have hrest := fun g hg => h g (List.mem_cons_of_mem f hg)
      rcases hf with ⟨it, hit⟩ | ⟨m, hm⟩ | ⟨o, p, c, hop⟩
      · simp [getNotesGo, hit, ih hrest, Except.toOption, Except.map]
      · simp [getNotesGo, hm, ih hrest, Except.toOption]
      · simp [getNotesGo, hop, ih hrest, Except.toOption]

/-- C8 amended: the listing enumerates the .md files directly inside the
folder and returns one record per file, skipping files whose read
fails with FileNotFoundError or with a read VaultFileOperationError; a
file that reads but whose content fails to parse (an invalid date
value, a YAML failure) aborts the whole listing instead of being
skipped. -/
theorem C8_listing_skips_only_read_failures (now : DT) (vault : FsPath)
    (folder : String) (fs : FS)
    (h : ∀ f ∈ globMd fs (vault ++ [folder]),
        (∃ it, (readNote now f fs).1 = Except.ok it) ∨
        (∃ m, (readNote now f fs).1
          = Except.error (PyErr.osError OSErrKind.fileNotFound m)) ∨
        (∃ o p c, (readNote now f fs).1
          = Except.error (PyErr.vaultFileOperationError o p c))) :
    getNotes now vault folder fs
      = Except.ok ((globMd fs (vault ++ [folder])).filterMap
          (fun f => ((readNote now f fs).1).toOption)) :=
  getNotesGo_spec now fs (globMd fs (vault ++ [folder])) h

/-- Witness for the listing theorem over a folder of well formed
records. -/
theorem C8_listing_skips_only_read_failures_witness :
    (∀ f ∈ globMd c8okfs (wVault ++ ["tasks"]),
        (∃ it, (readNote wNow f c8okfs).1 = Except.ok it) ∨
        (∃ m, (readNote wNow f c8okfs).1
          = Except.error (PyErr.osError OSErrKind.fileNotFound m)) ∨
        (∃ o p c, (readNote wNow f c8okfs).1
          = Except.error (PyErr.vaultFileOperationError o p c))) ∧
    getNotes wNow wVault "tasks" c8okfs
      = Except.ok ((globMd c8okfs (wVault ++ ["tasks"])).filterMap
          (fun f => ((readNote wNow f c8okfs).1).toOption)) := by
  have hglob : globMd c8okfs (wVault ++ ["tasks"]) = [["vault", "tasks", "a.md"]] := rfl
  have h : ∀ f ∈ globMd c8okfs (wVault ++ ["tasks"]),
      (∃ it, (readNote wNow f c8okfs).1 = Except.ok it) ∨
      (∃ m, (readNote wNow f c8okfs).1
        = Except.error (PyErr.osError OSErrKind.fileNotFound m)) ∨
      (∃ o p c, (readNote wNow f c8okfs).1
        = Except.error (PyErr.vaultFileOperationError o p c)) := by
    intro f hf
    rw [hglob] at hf
    rcases List.mem_singleton.mp hf with rfl
    exact Or.inl ⟨_, rfl⟩
  exact ⟨h, C8_listing_skips_only_read_failures wNow wVault "tasks" c8okfs h⟩

theorem processActive_done_norepeat_shape (eng : CronEngine) (now : DT)
    (vault : FsPath) (cfg : Config) (t : TaskItem)
    (hd : t.done.truthy = true) (hr : t.repeat_task.truthy = false) :
    processActiveTask eng now vault cfg t
      = (moveNoteAbs vault
          (if t.completed_at.truthy then t else { t with completed_at := Val.dt now })
          cfg.completed_tasks).map
          (fun t2 => (t2, [Effect.move cfg.completed_tasks])) := by
  by_cases hc : t.completed_at.truthy = true
  · cases hm : moveNoteAbs vault t cfg.completed_tasks <;>
      simp [processActiveTask, hd, hr, hc, hm, Except.map, Except.instMonad,
        Except.bind, Except.pure, Bind.bind, Pure.pure]
  · rw [Bool.not_eq_true] at hc
    cases hm : moveNoteAbs vault { t with completed_at := Val.dt now }
        cfg.completed_tasks <;>
      simp [processActiveTask, hd, hr, hc, hm, truthy_dt, Except.map,
        Except.instMonad, Except.bind, Except.pure, Bind.bind, Pure.pure]

theorem processActive_notdone_err (eng : CronEngine) (now : DT) (vault : FsPath)
    (cfg : Config) (t : TaskItem) (e : PyErr) (hd : t.done.truthy = false)
    (hn : normalizeForField now t.do_date "do_date" = .error e) :
    processActiveTask eng now vault cfg t = .error e := by
  by_cases hc : t.completed_at.truthy = true <;>
    simp [processActiveTask, hd, hc, hn, Except.instMonad, Except.bind,
      Except.pure, Bind.bind, Pure.pure]

theorem processActive_notdone_eq (eng : CronEngine) (now : DT) (vault : FsPath)
    (cfg : Config) (t : TaskItem) (nd : Option DT) (hd : t.done.truthy = false)
    (hn : normalizeForField now t.do_date "do_date" = .ok nd) :
    processActiveTask eng now vault cfg t
      = .ok (saveTaskAbs vault cfg.tasks
          { (if t.completed_at.truthy then { t with completed_at := Val.none }
             else t) with
            do_date := Val.dt (Option.elim nd now
              (fun x => if x.day < now.day then now else x)) },
          [Effect.save cfg.tasks]) := by
  by_cases hc : t.completed_at.truthy = true
  · cases nd with
    | none =>
        simp [processActiveTask, hd, hc, hn, truthy_none, Option.elim,
          Except.instMonad, Except.bind, Except.pure, Bind.bind, Pure.pure]
    | some x =>
        by_cases hcmp : x.day < now.day <;>
          simp [processActiveTask, hd, hc, hn, hcmp, truthy_none, Option.elim,
            Except.instMonad, Except.bind, Except.pure, Bind.bind, Pure.pure]
  · rw [Bool.not_eq_true] at hc
    cases nd with
    | none =>
        simp [processActiveTask, hd, hc, hn, Option.elim,
          Except.instMonad, Except.bind, Except.pure, Bind.bind, Pure.pure]
    | some x =>
        by_cases hcmp : x.day < now.day <;>
          simp [processActiveTask, hd, hc, hn, hcmp, Option.elim,
            Except.instMonad, Except.bind, Except.pure, Bind.bind, Pure.pure]

theorem processActive_notdone_run (eng : CronEngine) (now : DT) (vault : FsPath)
    (cfg : Config) (u : TaskItem) (x : DT)
    (hd : u.done.truthy = false) (hc : u.completed_at.truthy = false)
    (hx : u.do_date = Val.dt x) (hxd : ¬ x.day < now.day)
    (hsrc : u.source_path = some (writeNotePath vault cfg.tasks u.title)) :
    processActiveTask eng now vault cfg u = .ok (u, [Effect.save cfg.tasks]) := by
  obtain ⟨tt, cc, fm, sp, ip, dd, ud, ca, dn, hpr, rp⟩ := u
  simp only at hx hsrc hd hc
  subst hx
  subst hsrc
  simp [processActiveTask, hd, hc, normalize_dt, hxd, saveTaskAbs,
    Except.instMonad, Except.bind, Except.pure, Bind.bind, Pure.pure]

theorem processActive_move_run (eng : CronEngine) (now : DT) (vault : FsPath)
    (cfg : Config) (u : TaskItem) (d : FsPath)
    (hd : u.done.truthy = true) (hr : u.repeat_task.truthy = false)
    (hc : u.completed_at.truthy = true)
    (hs : u.source_path = some d)
    (hdest : vault ++ [cfg.completed_tasks, lastSeg d] = d) :
    processActiveTask eng now vault cfg u
      = .ok (u, [Effect.move cfg.completed_tasks]) := by
  obtain ⟨tt, cc, fm, sp, ip, dd, ud, ca, dn, hpr, rp⟩ := u
  simp only at hs hd hr hc
  subst hs
  simp [processActiveTask, hd, hr, hc, moveNoteAbs, hdest,
    Except.instMonad, Except.bind, Except.pure, Bind.bind, Pure.pure]

/-- C7: with no clock change between the runs, running
process_active_task a second time on the task produced by a first
successful run changes nothing: the second run returns the same task
record (fields and stored location) and requests the same store
effects as the first. -/
theorem C7_process_active_idempotent (eng : CronEngine) (now : DT) (vault : FsPath)
    (cfg : Config) (t s1 : TaskItem) (effs1 : List Effect)
    (heng : ∀ v u, u.day ≤ (eng.nextOcc v u).day)
    (h1 : processActiveTask eng now vault cfg t = .ok (s1, effs1)) :
    processActiveTask eng now vault cfg s1 = .ok (s1, effs1) := by
  by_cases hd : t.done.truthy = true
  · by_cases hr : t.repeat_task.truthy = true
    · rw [processActive_reset_shape eng now vault cfg t hd hr] at h1
      cases hn : normalizeForField now t.due_date "due_date" with
      | error e =>
          rw [resetRepeatingTask_err eng now vault cfg t e hr hn] at h1
          cases h1
      | ok nd =>
          rw [resetRepeatingTask_ok eng now vault cfg t nd hr hn] at h1
          injection h1 with h1p
          injection h1p with ha hb
          subst ha
          subst hb
          exact processActive_notdone_run eng now vault cfg _
            ⟨(eng.nextOcc t.repeat_task now).day, 0⟩ rfl rfl rfl
            (not_lt.mpr (heng t.repeat_task now)) rfl
    · rw [Bool.not_eq_true] at hr
      rw [processActive_done_norepeat_shape eng now vault cfg t hd hr] at h1
      by_cases hc : t.completed_at.truthy = true
      · rw [if_pos hc] at h1
        cases hm : moveNoteAbs vault t cfg.completed_tasks with
        | error e => rw [hm] at h1; simp [Except.map] at h1
        | ok t2 =>
            rw [hm] at h1
            simp only [Except.map] at h1
            injection h1 with h1p
            injection h1p with ha hb
            subst ha
            subst hb
            cases hsp : t.source_path with
            | none => simp [moveNoteAbs, hsp] at hm
            | some p =>
                simp only [moveNoteAbs, hsp] at hm
                by_cases hpd : p = vault ++ [cfg.completed_tasks, lastSeg p]
                · rw [if_pos hpd] at hm
                  injection hm with hm2
                  subst hm2
                  exact processActive_move_run eng now vault cfg t p hd hr hc hsp
                    hpd.symm
                · rw [if_neg hpd] at hm
                  injection hm with hm2
                  subst hm2
                  exact processActive_move_run eng now vault cfg _
                    (vault ++ [cfg.completed_tasks, lastSeg p]) hd hr hc rfl
                    (by rw [lastSeg_append_two])
      · rw [if_neg hc] at h1
        have hcf : t.completed_at.truthy = false := by
          rw [← Bool.not_eq_true]; exact hc
        cases hm : moveNoteAbs vault { t with completed_at := Val.dt now }
            cfg.completed_tasks with
        | error e => rw [hm] at h1; simp [Except.map] at h1
        | ok t2 =>
            rw [hm] at h1
            simp only [Except.map] at h1
            injection h1 with h1p
            injection h1p with ha hb
            subst ha
            subst hb
            cases hsp : t.source_path with
            | none => simp [moveNoteAbs, hsp] at hm
            | some p =>
                simp only [moveNoteAbs, hsp] at hm
                by_cases hpd : p = vault ++ [cfg.completed_tasks, lastSeg p]
                · rw [if_pos hpd] at hm
                  injection hm with hm2
                  subst hm2
                  exact processActive_move_run eng now vault cfg _ p hd hr rfl
                    rfl hpd.symm
                · rw [if_neg hpd] at hm
                  injection hm with hm2
                  subst hm2
                  exact processActive_move_run eng now vault cfg _
                    (vault ++ [cfg.completed_tasks, lastSeg p]) hd hr rfl rfl
                    (by rw [lastSeg_append_two])
  · rw [Bool.not_eq_true] at hd
    cases hn : normalizeForField now t.do_date "do_date" with
    | error e =>
        rw [processActive_notdone_err eng now vault cfg t e hd hn] at h1
        cases h1
    | ok nd =>
        rw [processActive_notdone_eq eng now vault cfg t nd hd hn] at h1
        injection h1 with h1p
        injection h1p with ha hb
        subst hb
        have hxd : ¬ (Option.elim nd now
            (fun x => if x.day < now.day then now else x)).day < now.day := by
          cases nd with
          | none => exact lt_irrefl now.day
          | some x =>
              by_cases hcmp : x.day < now.day
              · simp only [Option.elim, hcmp, if_true]
                exact lt_irrefl now.day
              · simp only [Option.elim, hcmp, if_false]
                exact not_false
        by_cases hc : t.completed_at.truthy = true
        · rw [if_pos hc] at ha
          subst ha
          exact processActive_notdone_run eng now vault cfg _ _ hd rfl rfl hxd rfl
        · rw [if_neg hc] at ha
          have hcf : t.completed_at.truthy = false := by
            rw [← Bool.not_eq_true]; exact hc
          subst ha
          exact processActive_notdone_run eng now vault cfg _ _ hd hcf rfl hxd rfl

/-- Witness for the idempotence theorem: the completed scenario task is
moved on the first run and the second run changes nothing. -/
theorem C7_process_active_idempotent_witness :
    (∀ (v : Val) (u : DT), u.day ≤ (wEngine.nextOcc v u).day) ∧
    processActiveTask wEngine wNow wVault wCfg wTask6
      = .ok ({ wTask6 with source_path := some ["vault", "completed", "T.md"] },
             [Effect.move wCfg.completed_tasks]) ∧
    processActiveTask wEngine wNow wVault wCfg
        { wTask6 with source_path := some ["vault", "completed", "T.md"] }
      = .ok ({ wTask6 with source_path := some ["vault", "completed", "T.md"] },
             [Effect.move wCfg.completed_tasks]) := by
  have heng : ∀ (v : Val) (u : DT), u.day ≤ (wEngine.nextOcc v u).day := by
    intro v u
    show u.day ≤ u.day + 1
    omega
  have h1 : processActiveTask wEngine wNow wVault wCfg wTask6
      = .ok ({ wTask6 with source_path := some ["vault", "completed", "T.md"] },
             [Effect.move wCfg.completed_tasks]) := rfl
  exact ⟨heng, h1,
    C7_process_active_idempotent wEngine wNow wVault wCfg wTask6 _ _ heng h1⟩

/-- Witness for the read path theorem: reading a missing note leaves the
filesystem unchanged, emits no lock events, and its error is not a
ConcurrencyError. -/
theorem C10_read_lock_noop_witness :
    (readNote wNow ["vault", "tasks", "missing.md"] c1fs).2.1 = c1fs ∧
    (readNote wNow ["vault", "tasks", "missing.md"] c1fs).2.2 = ([] : List Ev) ∧
    (PyErr.osError OSErrKind.fileNotFound
      "Note not found: vault/tasks/missing.md").isConcurrency = false := by
  obtain ⟨h0, h1, h2, h3⟩ := C10_read_lock_noop wNow ["vault", "tasks", "missing.md"] c1fs
  exact ⟨h1, h2, h3 _ rfl⟩
